import Mathlib

/-!
Shallow embedding of the SpamGuard_Z encrypted-record lifecycle.

The durable state lives in `src/contracts/SpamGuard_Z.sol` (contract
`EncryptedSpamFilter`): a `mapping(string => EmailData) emailRegistry`
together with an append-only `string[] emailIds`, mutated by `processEmail`
(record creation) and `verifySpamStatus` (one-shot disclosure commit), read
by `getEncryptedContent`, `getEmailData` and `getAllEmailIds`. The
client-side verify/decrypt orchestration is `decryptData` in
`src/frontend/web/src/App.tsx`.

Machine integers are embedded as `Nat` (`uint256`/`uint32`/`address`
values; the contract never performs arithmetic on them, so no overflow
reduction arises). `bytes32` ciphertext handles are embedded as `Nat`.
A reverting Solidity call is embedded as `Except` returning an error and,
at the transition-system level (`applyOp`), as the identity on the state —
EVM reverts roll every storage write back.
-/

namespace SpamGuard

/-- Error taxonomy of the spec (§7) restricted to the kinds the embedded
operations can produce. The contract signals these by `require` / revert. -/
inductive SpamError where
  | AlreadyExists
  | NotFound
  | AlreadyVerified
  | HandleMismatch
  | InvalidProof
  | MalformedCleartext
  | EncodingError
deriving DecidableEq, Repr

/-- Revert reason carried by each error. `AlreadyExists`, `NotFound`,
`AlreadyVerified` and `EncodingError` are the literal `require` strings of
`SpamGuard_Z.sol`; the remaining three arise inside the external
`@fhevm/solidity` library / `abi.decode`, whose exact message text is
library-defined — it is modelled here by generic text (what matters to the
frontend's catch handler is only that no revert reason contains the text
`"Data already verified"`, which none does). -/
def revertMessage : SpamError → String
  | .AlreadyExists => "Email already processed"
  | .NotFound => "Email does not exist"
  | .AlreadyVerified => "Email already verified"
  | .HandleMismatch => "fhevm signature check reverted"
  | .InvalidProof => "fhevm signature check reverted"
  | .MalformedCleartext => "abi decode reverted"
  | .EncodingError => "Invalid encrypted content"

/-- The `EmailData` struct of `SpamGuard_Z.sol`. `encryptedContent` is the
`euint32` ciphertext handle, `sender : address` and the `uint` fields are
embedded as `Nat`. -/
structure EmailData where
  encryptedContent : Nat
  publicMetadata : Nat
  sender : Nat
  timestamp : Nat
  isSpam : Bool
  decryptedScore : Nat
  isVerified : Bool
deriving DecidableEq, Repr

/-- Default value of `EmailData` in an EVM `mapping`: everything zeroed. -/
def emptyEmail : EmailData :=
  { encryptedContent := 0, publicMetadata := 0, sender := 0, timestamp := 0,
    isSpam := false, decryptedScore := 0, isVerified := false }

/-- Contract storage: `emailRegistry` (a mapping, embedded as an association
list falling back to the zeroed default) and the append-only `emailIds`. -/
structure ContractState where
  emailRegistry : List (String × EmailData)
  emailIds : List String
deriving DecidableEq, Repr

/-- The storage of a freshly deployed contract. -/
def genesisState : ContractState := { emailRegistry := [], emailIds := [] }

/-- Mapping read with the EVM default for absent keys. -/
def lookupRec : List (String × EmailData) → String → EmailData
  | [], _ => emptyEmail
  | (k, v) :: rest, id => if k = id then v else lookupRec rest id

/-- Mapping write: replace the binding if present, append it otherwise. -/
def insertRec : List (String × EmailData) → String → EmailData → List (String × EmailData)
  | [], id, d => [(id, d)]
  | (k, v) :: rest, id, d =>
      if k = id then (k, d) :: rest else (k, v) :: insertRec rest id d

/-- Read `emailRegistry[id]`. -/
def getEmail (s : ContractState) (id : String) : EmailData :=
  lookupRec s.emailRegistry id

/-- Write `emailRegistry[id] = d`. -/
def setEmail (s : ContractState) (id : String) (d : EmailData) : ContractState :=
  { s with emailRegistry := insertRec s.emailRegistry id d }

/-- An `externalEuint32` input together with its attached input proof.
`handle` is the ciphertext handle `FHE.fromExternal` yields for the pair and
`proofValid` whether the external FHE library accepts the pair (the
`FHE.isInitialized(FHE.fromExternal(...))` guard of `processEmail` line 34);
the library itself is outside this repository, so its accept/reject verdict
is carried as this field. -/
structure ExtCiphertext where
  handle : Nat
  proofValid : Bool
deriving DecidableEq, Repr

/-- `processEmail` of `SpamGuard_Z.sol` (lines 26-52). The existence guard
(line 32) tests whether the stored `sender` is still the mapping default —
embedded as `sender = 0`; a caller's `msg.sender` is a nonzero address. On
success the record is stored with `isSpam = false`, `decryptedScore = 0`,
`isVerified = false` and the id is pushed onto `emailIds`. -/
def processEmail (s : ContractState) (emailId : String) (encryptedContent : ExtCiphertext)
    (publicMetadata : Nat) (msgSender : Nat) (blockTimestamp : Nat) :
    Except SpamError ContractState :=
  if (getEmail s emailId).sender ≠ 0 then
    .error .AlreadyExists
  else if encryptedContent.proofValid = false then
    .error .EncodingError
  else
    let s' := setEmail s emailId
      { encryptedContent := encryptedContent.handle
        publicMetadata := publicMetadata
        sender := msgSender
        timestamp := blockTimestamp
        isSpam := false
        decryptedScore := 0
        isVerified := false }
    .ok { s' with emailIds := s'.emailIds ++ [emailId] }

/-- The ephemeral proof bundle submitted to `verifySpamStatus`:
`abiEncodedCleartexts` is `abiEncodedResult` (embedded as the list of its
32-byte words), `ciphertextHandles` the ordered handle list the signature
inside `verificationProof` is bound to, and `sigValid` whether that
signature is genuine under the trusted decryption-service keys. -/
structure ProofBundle where
  ciphertextHandles : List Nat
  abiEncodedCleartexts : List Nat
  sigValid : Bool
deriving DecidableEq, Repr

/-- Modelled from the spec: `FHE.checkSignatures` lives in the external
`@fhevm/solidity` library, not in this repository. Per the spec (§4.3 steps
3-4 and the `ProofBundle` contract in §3), the signature authenticates the
abi-encoded cleartexts as the genuine disclosure for one exact ordered
handle list, so the check passes iff the bundle is bound to precisely the
handle list the contract passes in and the signature itself is genuine.
A handle-list mismatch is the spec's `HandleMismatch` failure, a bad
signature its `InvalidProof` failure; both revert the transaction. -/
def checkSignatures (cts : List Nat) (bundle : ProofBundle) : Option SpamError :=
  if bundle.ciphertextHandles ≠ cts then some .HandleMismatch
  else if bundle.sigValid = false then some .InvalidProof
  else none

/-- `abi.decode(abiEncodedResult, (bool, uint32))` (line 67): exactly two
32-byte words, the first a canonical boolean (0 or 1), the second within
`uint32` range; anything else reverts. -/
def abiDecodeBoolUint32 : List Nat → Option (Bool × Nat)
  | [b, sc] => if b ≤ 1 ∧ sc < 4294967296 then some (b == 1, sc) else none
  | _ => none

/-- `verifySpamStatus` of `SpamGuard_Z.sol` (lines 54-74): existence guard
(line 59), idempotency guard (line 60), the one-element expected handle list
`cts` built from the stored record (lines 62-63), the library signature
check (line 65), the cleartext decode (line 67) and the single storage
update setting `isSpam`, `decryptedScore` and `isVerified` together
(lines 69-71). -/
def verifySpamStatus (s : ContractState) (emailId : String) (bundle : ProofBundle) :
    Except SpamError ContractState :=
  if (getEmail s emailId).sender = 0 then
    .error .NotFound
  else if (getEmail s emailId).isVerified then
    .error .AlreadyVerified
  else
    match checkSignatures [(getEmail s emailId).encryptedContent] bundle with
    | some e => .error e
    | none =>
      match abiDecodeBoolUint32 bundle.abiEncodedCleartexts with
      | none => .error .MalformedCleartext
      | some (isSpam, score) =>
          .ok (setEmail s emailId
            { getEmail s emailId with
                isSpam := isSpam, decryptedScore := score, isVerified := true })

/-- `getEncryptedContent` (lines 76-79). -/
def getEncryptedContent (s : ContractState) (emailId : String) : Except SpamError Nat :=
  if (getEmail s emailId).sender = 0 then .error .NotFound
  else .ok (getEmail s emailId).encryptedContent

/-- `getEmailData` (lines 81-100): the tuple
`(publicMetadata, sender, timestamp, isSpam, decryptedScore, isVerified)`. -/
def getEmailData (s : ContractState) (emailId : String) :
    Except SpamError (Nat × Nat × Nat × Bool × Nat × Bool) :=
  if (getEmail s emailId).sender = 0 then .error .NotFound
  else
    let d := getEmail s emailId
    .ok (d.publicMetadata, d.sender, d.timestamp, d.isSpam, d.decryptedScore, d.isVerified)

/-- `getAllEmailIds` (lines 102-104). -/
def getAllEmailIds (s : ContractState) : List String :=
  s.emailIds

/-- A state-mutating transaction against the contract. -/
inductive Op where
  | process (emailId : String) (ext : ExtCiphertext) (publicMetadata : Nat)
      (msgSender : Nat) (blockTimestamp : Nat)
  | verify (emailId : String) (bundle : ProofBundle)
deriving DecidableEq, Repr

/-- Transaction semantics: a successful call commits the new storage, a
reverting call leaves storage exactly as it was. -/
def applyOp (s : ContractState) : Op → ContractState
  | .process id ext md sndr ts =>
      match processEmail s id ext md sndr ts with
      | .ok s' => s'
      | .error _ => s
  | .verify id bundle =>
      match verifySpamStatus s id bundle with
      | .ok s' => s'
      | .error _ => s

/-- Run a sequence of transactions. -/
def execOps (s : ContractState) : List Op → ContractState
  | [] => s
  | op :: rest => execOps (applyOp s op) rest

/-- States reachable from a freshly deployed contract. -/
def Reachable (s : ContractState) : Prop :=
  ∃ ops : List Op, execOps genesisState ops = s

/-- The record `processEmail` writes for a fresh id. -/
def freshRecord (ext : ExtCiphertext) (md sndr ts : Nat) : EmailData :=
  { encryptedContent := ext.handle, publicMetadata := md, sender := sndr,
    timestamp := ts, isSpam := false, decryptedScore := 0, isVerified := false }

/-- The storage a successful `processEmail` leaves behind. -/
def createdState (s : ContractState) (id : String) (ext : ExtCiphertext)
    (md sndr ts : Nat) : ContractState :=
  { emailRegistry := insertRec s.emailRegistry id (freshRecord ext md sndr ts),
    emailIds := s.emailIds ++ [id] }

/-- The record `verifySpamStatus` commits on success: the stored record with
exactly `isSpam`, `decryptedScore` and `isVerified` rewritten. -/
def verifiedRecord (old : EmailData) (flag : Bool) (score : Nat) : EmailData :=
  { old with isSpam := flag, decryptedScore := score, isVerified := true }

/-- Every unverified record holds the creation-time zeroed placeholders
`decryptedScore = 0`, `isSpam = false` in its disclosure fields. -/
def UnverifiedDefaults (s : ContractState) : Prop :=
  ∀ id : String, (getEmail s id).isVerified = false →
    (getEmail s id).decryptedScore = 0 ∧ (getEmail s id).isSpam = false

/-- Discriminator for verify transactions. -/
def isVerifyTx : Op → Bool
  | .verify _ _ => true
  | .process _ _ _ _ _ => false

/-! ### Client-side verify/decrypt orchestration (`src/frontend/web/src/App.tsx`) -/

/-- JavaScript `a || b` on numbers where `a` is `0` or a number (`0` is
falsy). -/
def jsOr (a b : Nat) : Nat := if a = 0 then b else a

/-- Contiguous-substring test on character lists (JavaScript
`String.prototype.includes`). -/
def charsContain : List Char → List Char → Bool
  | [], needle => needle.isEmpty
  | c :: rest, needle => needle.isPrefixOf (c :: rest) || charsContain rest needle

/-- JavaScript `hay.includes(needle)`. -/
def strContains (hay needle : String) : Bool :=
  charsContain hay.data needle.data

/-- The spam score the UI displays (`analyzeSpam`, App.tsx line 294):
`email.isVerified ? (email.decryptedValue || 0) : (decryptedScore || email.publicValue1 || 50)`,
JavaScript falsiness of `0`/`null` embedded through `jsOr`; `localScore` is
the locally decrypted value, `none` when no local decryption happened. -/
def displayedSpamScore (isVerified : Bool) (decryptedValue : Nat)
    (localScore : Option Nat) (publicValue1 : Nat) : Nat :=
  if isVerified then jsOr decryptedValue 0
  else jsOr (localScore.getD 0) (jsOr publicValue1 50)

/-- What the frontend's `decryptData` reports back: a returned number with a
success banner, the catch branch that special-cases an already-verified
record (success banner, `null` returned), or the generic error branch
(error banner, `null` returned). -/
inductive DecryptOutcome where
  | success (value : Nat)
  | benignAlreadyVerified
  | failure
deriving DecidableEq, Repr

/-- The client-side `decryptData` of `App.tsx` (lines 193-273), the
engine-layer verify workflow, restricted to its interaction with the
contract. `sRead` is the contract state at the initial `getBusinessData`
read and `sVerify` the state when the on-chain verify transaction lands;
the spec's §5 suspension point (`AwaitingExternalProof`) sits between the
two, which is where a concurrent verification can commit first. Fast path:
a record already verified at the read returns the stored value
(`Number(businessData.decryptedValue) || 0`). Otherwise the verify
transaction is submitted; on success the frontend returns the clear value
the decryption service disclosed for the handle (the decoded scalar of the
bundle); on revert, the catch handler reports the benign already-verified
outcome only when the error message contains `"Data already verified"`, and
the generic failure otherwise. In either error case `null` is returned. -/
def decryptData (sRead sVerify : ContractState) (businessId : String)
    (bundle : ProofBundle) : ContractState × DecryptOutcome :=
  if (getEmail sRead businessId).sender = 0 then
    (sVerify, .failure)
  else if (getEmail sRead businessId).isVerified then
    (sVerify, .success (jsOr (getEmail sRead businessId).decryptedScore 0))
  else
    match verifySpamStatus sVerify businessId bundle with
    | .ok s' =>
        match abiDecodeBoolUint32 bundle.abiEncodedCleartexts with
        | some (_, score) => (s', .success score)
        | none => (s', .failure)
    | .error e =>
        if strContains (revertMessage e) "Data already verified" then
          (sVerify, .benignAlreadyVerified)
        else
          (sVerify, .failure)

/-! ### Concrete fixtures used by witnesses and counterexamples -/

/-- A valid encrypted input whose ciphertext handle is `7`. -/
def demoExt : ExtCiphertext := { handle := 7, proofValid := true }

/-- The storage after creating record `"a"` (handle 7, metadata 3, sender 1,
timestamp 100) on a fresh contract. -/
def demoState : ContractState :=
  applyOp genesisState (.process "a" demoExt 3 1 100)

/-- A genuinely signed disclosure for handle 7 decoding to
`(isSpam = true, score = 42)`. -/
def demoBundle : ProofBundle :=
  { ciphertextHandles := [7], abiEncodedCleartexts := [1, 42], sigValid := true }

/-- The storage after record `"a"` has been verified with `demoBundle`. -/
def demoVerified : ContractState :=
  applyOp demoState (.verify "a" demoBundle)

/-- A bundle whose handle list does not match record `"a"`'s stored
handle. -/
def mismatchBundle : ProofBundle :=
  { ciphertextHandles := [8], abiEncodedCleartexts := [1, 42], sigValid := true }

/-- A syntactically valid but wrongly signed bundle for handle 7. -/
def badSigBundle : ProofBundle :=
  { ciphertextHandles := [7], abiEncodedCleartexts := [1, 42], sigValid := false }

/-- A genuinely signed disclosure for handle 7: scalar 40, flag `true`. -/
def bundleFlagTrue : ProofBundle :=
  { ciphertextHandles := [7], abiEncodedCleartexts := [1, 40], sigValid := true }

/-- A genuinely signed disclosure for handle 7: the same scalar 40 but flag
`false`. -/
def bundleFlagFalse : ProofBundle :=
  { ciphertextHandles := [7], abiEncodedCleartexts := [0, 40], sigValid := true }

/-! ### Basic mapping lemmas -/

theorem lookupRec_insertRec_same (m : List (String × EmailData)) (id : String) (d : EmailData) :
    lookupRec (insertRec m id d) id = d := by
  induction m with
  | nil => simp [insertRec, lookupRec]
  | cons kv rest ih =>
      obtain ⟨k, v⟩ := kv
      by_cases h : k = id
      · simp [insertRec, lookupRec, h]
      · simp [insertRec, lookupRec, h, ih]

theorem lookupRec_insertRec_ne (m : List (String × EmailData)) (id id' : String) (d : EmailData)
    (h : id' ≠ id) : lookupRec (insertRec m id d) id' = lookupRec m id' := by
  have h' : id ≠ id' := Ne.symm h
  induction m with
  | nil => simp [insertRec, lookupRec, h']
  | cons kv rest ih =>
      obtain ⟨k, v⟩ := kv
      by_cases hk : k = id
      · subst hk
        simp [insertRec, lookupRec, h']
      · simp [insertRec, lookupRec, hk, ih]

theorem getEmail_setEmail_same (s : ContractState) (id : String) (d : EmailData) :
    getEmail (setEmail s id d) id = d :=
  lookupRec_insertRec_same s.emailRegistry id d

theorem getEmail_setEmail_ne (s : ContractState) (id id' : String) (d : EmailData)
    (h : id' ≠ id) : getEmail (setEmail s id d) id' = getEmail s id' :=
  lookupRec_insertRec_ne s.emailRegistry id id' d h

theorem emailIds_setEmail (s : ContractState) (id : String) (d : EmailData) :
    (setEmail s id d).emailIds = s.emailIds := rfl

/-! ### Inversion lemmas for the two mutating entry points -/

theorem processEmail_ok_sound (s : ContractState) (id : String) (ext : ExtCiphertext)
    (md sndr ts : Nat) (h1 : (getEmail s id).sender = 0) (h2 : ext.proofValid = true) :
    processEmail s id ext md sndr ts = .ok (createdState s id ext md sndr ts) := by
  unfold processEmail
  simp [h1, h2, setEmail, freshRecord, createdState]

theorem processEmail_ok_inv (s : ContractState) (id : String) (ext : ExtCiphertext)
    (md sndr ts : Nat) (s' : ContractState)
    (h : processEmail s id ext md sndr ts = .ok s') :
    (getEmail s id).sender = 0 ∧ ext.proofValid = true ∧
      s' = createdState s id ext md sndr ts := by
  by_cases h1 : (getEmail s id).sender = 0
  · by_cases h2 : ext.proofValid = true
    · rw [processEmail_ok_sound s id ext md sndr ts h1 h2] at h
      exact ⟨h1, h2, (Except.ok.injEq _ _ |>.mp h).symm⟩
    · unfold processEmail at h
      simp [h1, Bool.eq_false_iff.mpr h2] at h
  · unfold processEmail at h
    simp [h1] at h

theorem getEmail_createdState_same (s : ContractState) (id : String) (ext : ExtCiphertext)
    (md sndr ts : Nat) :
    getEmail (createdState s id ext md sndr ts) id = freshRecord ext md sndr ts :=
  lookupRec_insertRec_same _ _ _

theorem getEmail_createdState_ne (s : ContractState) (id id' : String) (ext : ExtCiphertext)
    (md sndr ts : Nat) (h : id' ≠ id) :
    getEmail (createdState s id ext md sndr ts) id' = getEmail s id' :=
  lookupRec_insertRec_ne _ _ _ _ h

theorem verify_ok_sound (s : ContractState) (id : String) (b : ProofBundle)
    (flag : Bool) (score : Nat)
    (h1 : (getEmail s id).sender ≠ 0) (h2 : (getEmail s id).isVerified = false)
    (h3 : b.ciphertextHandles = [(getEmail s id).encryptedContent]) (h4 : b.sigValid = true)
    (h5 : abiDecodeBoolUint32 b.abiEncodedCleartexts = some (flag, score)) :
    verifySpamStatus s id b = .ok (setEmail s id (verifiedRecord (getEmail s id) flag score)) := by
  unfold verifySpamStatus checkSignatures
  simp [h1, h2, h3, h4, h5, verifiedRecord]

theorem verify_ok_inv (s : ContractState) (id : String) (b : ProofBundle) (s' : ContractState)
    (h : verifySpamStatus s id b = .ok s') :
    (getEmail s id).sender ≠ 0 ∧ (getEmail s id).isVerified = false ∧
      b.ciphertextHandles = [(getEmail s id).encryptedContent] ∧ b.sigValid = true ∧
      ∃ flag score, abiDecodeBoolUint32 b.abiEncodedCleartexts = some (flag, score) ∧
        s' = setEmail s id (verifiedRecord (getEmail s id) flag score) := by
  by_cases h1 : (getEmail s id).sender = 0
  · unfold verifySpamStatus at h
    simp [h1] at h
  · by_cases h2 : (getEmail s id).isVerified
    · unfold verifySpamStatus at h
      simp [h1, h2] at h
    · by_cases h3 : b.ciphertextHandles = [(getEmail s id).encryptedContent]
      · by_cases h4 : b.sigValid = true
        · cases hdec : abiDecodeBoolUint32 b.abiEncodedCleartexts with
          | none =>
              unfold verifySpamStatus checkSignatures at h
              simp [h1, h2, h3, h4, hdec] at h
          | some fs =>
              obtain ⟨flag, score⟩ := fs
              rw [verify_ok_sound s id b flag score h1 (by simpa using h2) h3 h4 hdec] at h
              exact ⟨h1, by simpa using h2, h3, h4, flag, score, rfl,
                (Except.ok.injEq _ _ |>.mp h).symm⟩
        · unfold verifySpamStatus checkSignatures at h
          simp [h1, h2, h3, Bool.eq_false_iff.mpr h4] at h
      · unfold verifySpamStatus checkSignatures at h
        simp [h1, h2, h3] at h


/-! ### Error-case lemmas -/

theorem processEmail_alreadyExists (s : ContractState) (id : String) (ext : ExtCiphertext)
    (md sndr ts : Nat) (h : (getEmail s id).sender ≠ 0) :
    processEmail s id ext md sndr ts = .error .AlreadyExists := by
  unfold processEmail
  simp [h]

theorem verify_alreadyVerified (s : ContractState) (id : String) (b : ProofBundle)
    (h1 : (getEmail s id).sender ≠ 0) (h2 : (getEmail s id).isVerified = true) :
    verifySpamStatus s id b = .error .AlreadyVerified := by
  unfold verifySpamStatus
  simp [h1, h2]

theorem verify_handleMismatch (s : ContractState) (id : String) (b : ProofBundle)
    (h1 : (getEmail s id).sender ≠ 0) (h2 : (getEmail s id).isVerified = false)
    (h3 : b.ciphertextHandles ≠ [(getEmail s id).encryptedContent]) :
    verifySpamStatus s id b = .error .HandleMismatch := by
  unfold verifySpamStatus checkSignatures
  simp [h1, h2, h3]

theorem verify_invalidProof (s : ContractState) (id : String) (b : ProofBundle)
    (h1 : (getEmail s id).sender ≠ 0) (h2 : (getEmail s id).isVerified = false)
    (h3 : b.ciphertextHandles = [(getEmail s id).encryptedContent])
    (h4 : b.sigValid = false) :
    verifySpamStatus s id b = .error .InvalidProof := by
  unfold verifySpamStatus checkSignatures
  simp [h1, h2, h3, h4]

/-! ### Transaction-level frame lemmas -/

theorem applyOp_process_ok (s : ContractState) (id : String) (ext : ExtCiphertext)
    (md sndr ts : Nat) (s' : ContractState)
    (h : processEmail s id ext md sndr ts = .ok s') :
    applyOp s (.process id ext md sndr ts) = s' := by
  simp [applyOp, h]

theorem applyOp_process_error (s : ContractState) (id : String) (ext : ExtCiphertext)
    (md sndr ts : Nat) (e : SpamError)
    (h : processEmail s id ext md sndr ts = .error e) :
    applyOp s (.process id ext md sndr ts) = s := by
  simp [applyOp, h]

theorem applyOp_verify_ok (s : ContractState) (id : String) (b : ProofBundle)
    (s' : ContractState) (h : verifySpamStatus s id b = .ok s') :
    applyOp s (.verify id b) = s' := by
  simp [applyOp, h]

theorem applyOp_verify_error (s : ContractState) (id : String) (b : ProofBundle)
    (e : SpamError) (h : verifySpamStatus s id b = .error e) :
    applyOp s (.verify id b) = s := by
  simp [applyOp, h]

/-- Fields set at creation are never changed by any later transaction, as
long as the record exists (`sender ≠ 0`): `processEmail` refuses to touch an
existing id and `verifySpamStatus` rewrites only `isSpam`,
`decryptedScore`, `isVerified`. -/
theorem applyOp_preserves_core (s : ContractState) (op : Op) (id : String)
    (h : (getEmail s id).sender ≠ 0) :
    (getEmail (applyOp s op) id).encryptedContent = (getEmail s id).encryptedContent ∧
    (getEmail (applyOp s op) id).publicMetadata = (getEmail s id).publicMetadata ∧
    (getEmail (applyOp s op) id).sender = (getEmail s id).sender ∧
    (getEmail (applyOp s op) id).timestamp = (getEmail s id).timestamp := by
  cases op with
  | process id' ext md sndr ts =>
      cases hres : processEmail s id' ext md sndr ts with
      | error e => simp [applyOp, hres]
      | ok s' =>
          obtain ⟨habs, hval, hst⟩ := processEmail_ok_inv s id' ext md sndr ts s' hres
          subst hst
          by_cases hid : id = id'
          · subst hid
            exact absurd habs h
          · rw [applyOp_process_ok s id' ext md sndr ts _ hres,
              getEmail_createdState_ne s id' id ext md sndr ts hid]
            exact ⟨rfl, rfl, rfl, rfl⟩
  | verify id' b =>
      cases hres : verifySpamStatus s id' b with
      | error e => simp [applyOp, hres]
      | ok s' =>
          obtain ⟨h1, h2, h3, h4, flag, score, hdec, hst⟩ := verify_ok_inv s id' b s' hres
          subst hst
          by_cases hid : id = id'
          · subst hid
            simp [applyOp, hres, getEmail_setEmail_same, verifiedRecord]
          · simp [applyOp, hres, getEmail_setEmail_ne _ _ _ _ hid]

theorem execOps_preserves_core (s : ContractState) (ops : List Op) (id : String)
    (h : (getEmail s id).sender ≠ 0) :
    (getEmail (execOps s ops) id).encryptedContent = (getEmail s id).encryptedContent ∧
    (getEmail (execOps s ops) id).publicMetadata = (getEmail s id).publicMetadata ∧
    (getEmail (execOps s ops) id).sender = (getEmail s id).sender ∧
    (getEmail (execOps s ops) id).timestamp = (getEmail s id).timestamp := by
  induction ops generalizing s with
  | nil => exact ⟨rfl, rfl, rfl, rfl⟩
  | cons op rest ih =>
      obtain ⟨hc, hm, hs, ht⟩ := applyOp_preserves_core s op id h
      have h' : (getEmail (applyOp s op) id).sender ≠ 0 := by rw [hs]; exact h
      obtain ⟨hc', hm', hs', ht'⟩ := ih (applyOp s op) h'
      exact ⟨hc'.trans hc, hm'.trans hm, hs'.trans hs, ht'.trans ht⟩

/-- Once a record is verified, no transaction changes its committed
`isSpam` / `decryptedScore`, and it stays verified. -/
theorem applyOp_verified_stable (s : ContractState) (op : Op) (id : String)
    (hs : (getEmail s id).sender ≠ 0) (hv : (getEmail s id).isVerified = true) :
    (getEmail (applyOp s op) id).sender ≠ 0 ∧
    (getEmail (applyOp s op) id).isVerified = true ∧
    (getEmail (applyOp s op) id).isSpam = (getEmail s id).isSpam ∧
    (getEmail (applyOp s op) id).decryptedScore = (getEmail s id).decryptedScore := by
  cases op with
  | process id' ext md sndr ts =>
      cases hres : processEmail s id' ext md sndr ts with
      | error e => simp [applyOp, hres, hs, hv]
      | ok s' =>
          obtain ⟨habs, hval, hst⟩ := processEmail_ok_inv s id' ext md sndr ts s' hres
          subst hst
          by_cases hid : id = id'
          · subst hid
            exact absurd habs hs
          · rw [applyOp_process_ok s id' ext md sndr ts _ hres,
              getEmail_createdState_ne s id' id ext md sndr ts hid]
            exact ⟨hs, hv, rfl, rfl⟩
  | verify id' b =>
      by_cases hid : id = id'
      · subst hid
        have herr : verifySpamStatus s id b = .error .AlreadyVerified :=
          verify_alreadyVerified s id b hs hv
        simp [applyOp, herr, hs, hv]
      · cases hres : verifySpamStatus s id' b with
        | error e => simp [applyOp, hres, hs, hv]
        | ok s' =>
            obtain ⟨h1, h2, h3, h4, flag, score, hdec, hst⟩ := verify_ok_inv s id' b s' hres
            subst hst
            simp [applyOp, hres, getEmail_setEmail_ne _ _ _ _ hid, hs, hv]

theorem execOps_verified_stable (s : ContractState) (ops : List Op) (id : String)
    (hs : (getEmail s id).sender ≠ 0) (hv : (getEmail s id).isVerified = true) :
    (getEmail (execOps s ops) id).isVerified = true ∧
    (getEmail (execOps s ops) id).isSpam = (getEmail s id).isSpam ∧
    (getEmail (execOps s ops) id).decryptedScore = (getEmail s id).decryptedScore := by
  induction ops generalizing s with
  | nil => exact ⟨hv, rfl, rfl⟩
  | cons op rest ih =>
      obtain ⟨hs', hv', hf, hd⟩ := applyOp_verified_stable s op id hs hv
      obtain ⟨hv'', hf', hd'⟩ := ih (applyOp s op) hs' hv'
      exact ⟨hv'', hf'.trans hf, hd'.trans hd⟩

/-! ### Reachability invariant: unverified records carry only the zeroed
placeholders in their disclosure fields -/

theorem unverifiedDefaults_genesis : UnverifiedDefaults genesisState := by
  intro id _
  exact ⟨rfl, rfl⟩

theorem unverifiedDefaults_applyOp (s : ContractState) (op : Op)
    (h : UnverifiedDefaults s) : UnverifiedDefaults (applyOp s op) := by
  cases op with
  | process id' ext md sndr ts =>
      cases hres : processEmail s id' ext md sndr ts with
      | error e =>
          rw [applyOp_process_error s id' ext md sndr ts e hres]
          exact h
      | ok s' =>
          rw [applyOp_process_ok s id' ext md sndr ts s' hres]
          obtain ⟨habs, hval, hst⟩ := processEmail_ok_inv s id' ext md sndr ts s' hres
          subst hst
          intro id hid
          by_cases hq : id = id'
          · subst hq
            rw [getEmail_createdState_same] at hid ⊢
            exact ⟨rfl, rfl⟩
          · rw [getEmail_createdState_ne s id' id ext md sndr ts hq] at hid ⊢
            exact h id hid
  | verify id' b =>
      cases hres : verifySpamStatus s id' b with
      | error e =>
          rw [applyOp_verify_error s id' b e hres]
          exact h
      | ok s' =>
          rw [applyOp_verify_ok s id' b s' hres]
          obtain ⟨h1, h2, h3, h4, flag, score, hdec, hst⟩ := verify_ok_inv s id' b s' hres
          subst hst
          intro id hid
          by_cases hq : id = id'
          · subst hq
            rw [getEmail_setEmail_same] at hid
            simp [verifiedRecord] at hid
          · rw [getEmail_setEmail_ne _ _ _ _ hq] at hid ⊢
            exact h id hid

theorem reachable_unverifiedDefaults (s : ContractState) (h : Reachable s) :
    UnverifiedDefaults s := by
  obtain ⟨ops, hops⟩ := h
  subst hops
  suffices h' : ∀ s0 : ContractState, UnverifiedDefaults s0 →
      UnverifiedDefaults (execOps s0 ops) from
    h' genesisState unverifiedDefaults_genesis
  induction ops with
  | nil => intro s0 h0; exact h0
  | cons op rest ih =>
      intro s0 h0
      exact ih (applyOp s0 op) (unverifiedDefaults_applyOp s0 op h0)

/-! ### The id ledger is append-only -/

theorem applyOp_emailIds_mono (s : ContractState) (op : Op) :
    ∃ t : List String, (applyOp s op).emailIds = s.emailIds ++ t := by
  cases op with
  | process id' ext md sndr ts =>
      cases hres : processEmail s id' ext md sndr ts with
      | error e =>
          rw [applyOp_process_error s id' ext md sndr ts e hres]
          exact ⟨[], by simp⟩
      | ok s' =>
          rw [applyOp_process_ok s id' ext md sndr ts s' hres]
          obtain ⟨habs, hval, hst⟩ := processEmail_ok_inv s id' ext md sndr ts s' hres
          subst hst
          exact ⟨[id'], rfl⟩
  | verify id' b =>
      cases hres : verifySpamStatus s id' b with
      | error e =>
          rw [applyOp_verify_error s id' b e hres]
          exact ⟨[], by simp⟩
      | ok s' =>
          rw [applyOp_verify_ok s id' b s' hres]
          obtain ⟨h1, h2, h3, h4, flag, score, hdec, hst⟩ := verify_ok_inv s id' b s' hres
          subst hst
          exact ⟨[], by simp [setEmail]⟩

theorem applyOp_verify_emailIds (s : ContractState) (id : String) (b : ProofBundle) :
    (applyOp s (.verify id b)).emailIds = s.emailIds := by
  cases hres : verifySpamStatus s id b with
  | error e => rw [applyOp_verify_error s id b e hres]
  | ok s' =>
      rw [applyOp_verify_ok s id b s' hres]
      obtain ⟨h1, h2, h3, h4, flag, score, hdec, hst⟩ := verify_ok_inv s id b s' hres
      subst hst
      rfl

theorem execOps_verifies_emailIds (s : ContractState) (ops : List Op)
    (h : ∀ op ∈ ops, isVerifyTx op = true) :
    (execOps s ops).emailIds = s.emailIds := by
  induction ops generalizing s with
  | nil => rfl
  | cons op rest ih =>
      have hop : isVerifyTx op = true := h op (List.mem_cons_self op rest)
      have hrest : ∀ op' ∈ rest, isVerifyTx op' = true :=
        fun o ho => h o (List.mem_cons_of_mem _ ho)
      cases op with
      | process id' ext md sndr ts => simp [isVerifyTx] at hop
      | verify id' b =>
          show (execOps (applyOp s (.verify id' b)) rest).emailIds = s.emailIds
          rw [ih (applyOp s (.verify id' b)) hrest, applyOp_verify_emailIds]

theorem execOps_append (s : ContractState) (l1 l2 : List Op) :
    execOps s (l1 ++ l2) = execOps (execOps s l1) l2 := by
  induction l1 generalizing s with
  | nil => rfl
  | cons op rest ih => exact ih (applyOp s op)

/-! ### Claims -/

/-- C1: the verified flag transitions false→true at most once.
`verifySpamStatus` fails with `AlreadyVerified` when the record's verified
flag is already true; a successful call requires the flag to be false and
its single storage update commits `isVerified`, `decryptedScore`
(disclosedValue) and `isSpam` (classificationFlag) together — the committed
record is exactly `verifiedRecord`, never one field without the others; and
no transaction ever takes a verified record back to unverified. -/
theorem C1_verified_transition_once :
    (∀ (s : ContractState) (id : String) (b : ProofBundle),
      (getEmail s id).sender ≠ 0 → (getEmail s id).isVerified = true →
        verifySpamStatus s id b = .error .AlreadyVerified) ∧
    (∀ (s : ContractState) (id : String) (b : ProofBundle) (s' : ContractState),
      verifySpamStatus s id b = .ok s' →
        (getEmail s id).isVerified = false ∧
        ∃ flag score, abiDecodeBoolUint32 b.abiEncodedCleartexts = some (flag, score) ∧
          getEmail s' id = verifiedRecord (getEmail s id) flag score) ∧
    (∀ (s : ContractState) (op : Op) (id : String),
      (getEmail s id).sender ≠ 0 → (getEmail s id).isVerified = true →
        (getEmail (applyOp s op) id).isVerified = true) := by
  refine ⟨verify_alreadyVerified, ?_, ?_⟩
  · intro s id b s' h
    obtain ⟨h1, h2, h3, h4, flag, score, hdec, hst⟩ := verify_ok_inv s id b s' h
    subst hst
    exact ⟨h2, flag, score, hdec, getEmail_setEmail_same _ _ _⟩
  · intro s op id h1 h2
    exact (applyOp_verified_stable s op id h1 h2).2.1

/-- Witness for C1 at the concrete record `"a"`. -/
theorem C1_witness :
    verifySpamStatus demoVerified "a" demoBundle = .error .AlreadyVerified ∧
    (getEmail demoState "a").isVerified = false ∧
    (getEmail (applyOp demoVerified (.verify "a" demoBundle)) "a").isVerified = true := by
  refine ⟨C1_verified_transition_once.1 demoVerified "a" demoBundle (by decide) (by decide),
    ?_,
    C1_verified_transition_once.2.2 demoVerified (.verify "a" demoBundle) "a"
      (by decide) (by decide)⟩
  exact (C1_verified_transition_once.2.1 demoState "a" demoBundle demoVerified (by rfl)).1

/-- C2: a verify call is accepted only when the bundle's ordered ciphertext
handle list is exactly the one-element list holding the record's stored
handle and the signature binding the cleartexts to that exact list is
genuine; a mismatching handle list fails with the distinct `HandleMismatch`
error, so no cleartext is ever committed without a proof bound to the
stored handle. -/
theorem C2_handle_binding :
    (∀ (s : ContractState) (id : String) (b : ProofBundle),
      (getEmail s id).sender ≠ 0 → (getEmail s id).isVerified = false →
      b.ciphertextHandles ≠ [(getEmail s id).encryptedContent] →
        verifySpamStatus s id b = .error .HandleMismatch) ∧
    (∀ (s : ContractState) (id : String) (b : ProofBundle) (s' : ContractState),
      verifySpamStatus s id b = .ok s' →
        b.ciphertextHandles = [(getEmail s id).encryptedContent] ∧ b.sigValid = true) := by
  refine ⟨verify_handleMismatch, ?_⟩
  intro s id b s' h
  obtain ⟨_, _, h3, h4, _⟩ := verify_ok_inv s id b s' h
  exact ⟨h3, h4⟩

/-- Witness for C2: a wrong-handle bundle is rejected with `HandleMismatch`
and the accepted bundle is bound to record `"a"`'s stored handle. -/
theorem C2_witness :
    verifySpamStatus demoState "a" mismatchBundle = .error .HandleMismatch ∧
    demoBundle.ciphertextHandles = [(getEmail demoState "a").encryptedContent] ∧
    demoBundle.sigValid = true := by
  refine ⟨C2_handle_binding.1 demoState "a" mismatchBundle (by decide) (by decide) (by decide),
    ?_⟩
  exact C2_handle_binding.2 demoState "a" demoBundle demoVerified (by rfl)

/-- C3: a record is created at most once per id: the first `processEmail`
for a fresh id succeeds and stores the fresh record, and a second create
call for the same id — with arbitrary other arguments — fails with
`AlreadyExists` and reverts, leaving the existing record (indeed the whole
storage) unchanged. -/
theorem C3_create_at_most_once (s : ContractState) (id : String)
    (ext ext' : ExtCiphertext) (md md' sndr sndr' ts ts' : Nat)
    (habs : (getEmail s id).sender = 0) (hsnd : sndr ≠ 0) (hval : ext.proofValid = true) :
    processEmail s id ext md sndr ts = .ok (createdState s id ext md sndr ts) ∧
    getEmail (createdState s id ext md sndr ts) id = freshRecord ext md sndr ts ∧
    processEmail (createdState s id ext md sndr ts) id ext' md' sndr' ts' =
      .error .AlreadyExists ∧
    applyOp (createdState s id ext md sndr ts) (.process id ext' md' sndr' ts') =
      createdState s id ext md sndr ts := by
  have hget := getEmail_createdState_same s id ext md sndr ts
  have hsender : (getEmail (createdState s id ext md sndr ts) id).sender ≠ 0 := by
    rw [hget]
    exact hsnd
  have herr := processEmail_alreadyExists (createdState s id ext md sndr ts) id
    ext' md' sndr' ts' hsender
  exact ⟨processEmail_ok_sound s id ext md sndr ts habs hval, hget, herr,
    applyOp_process_error _ id ext' md' sndr' ts' .AlreadyExists herr⟩

/-- Witness for C3: creating `"a"` twice on a fresh contract. -/
theorem C3_witness :
    processEmail genesisState "a" demoExt 3 1 100 =
      .ok (createdState genesisState "a" demoExt 3 1 100) ∧
    processEmail (createdState genesisState "a" demoExt 3 1 100) "a" demoExt 9 2 200 =
      .error .AlreadyExists ∧
    applyOp (createdState genesisState "a" demoExt 3 1 100) (.process "a" demoExt 9 2 200) =
      createdState genesisState "a" demoExt 3 1 100 := by
  have h := C3_create_at_most_once genesisState "a" demoExt demoExt 3 9 1 2 100 200
    (by decide) (by decide) (by decide)
  exact ⟨h.1, h.2.2.1, h.2.2.2⟩

/-- C4: a syntactically valid but wrongly signed bundle fails with
`InvalidProof` and the transaction reverts — the record (the whole storage)
is untouched, so the flag stays unverified and no disclosure fields are
written — while a genuinely signed bundle for the same record still
succeeds afterwards. -/
theorem C4_invalid_proof_no_mutation (s : ContractState) (id : String)
    (bBad bGood : ProofBundle) (flag : Bool) (score : Nat)
    (hex : (getEmail s id).sender ≠ 0) (hunv : (getEmail s id).isVerified = false)
    (hbadH : bBad.ciphertextHandles = [(getEmail s id).encryptedContent])
    (hbadS : bBad.sigValid = false)
    (hgoodH : bGood.ciphertextHandles = [(getEmail s id).encryptedContent])
    (hgoodS : bGood.sigValid = true)
    (hdec : abiDecodeBoolUint32 bGood.abiEncodedCleartexts = some (flag, score)) :
    verifySpamStatus s id bBad = .error .InvalidProof ∧
    applyOp s (.verify id bBad) = s ∧
    verifySpamStatus s id bGood =
      .ok (setEmail s id (verifiedRecord (getEmail s id) flag score)) := by
  have herr := verify_invalidProof s id bBad hex hunv hbadH hbadS
  exact ⟨herr, applyOp_verify_error s id bBad .InvalidProof herr,
    verify_ok_sound s id bGood flag score hex hunv hgoodH hgoodS hdec⟩

/-- Witness for C4 at record `"a"` with a bad-signature bundle and the
genuine bundle. -/
theorem C4_witness :
    verifySpamStatus demoState "a" badSigBundle = .error .InvalidProof ∧
    applyOp demoState (.verify "a" badSigBundle) = demoState ∧
    verifySpamStatus demoState "a" demoBundle =
      .ok (setEmail demoState "a" (verifiedRecord (getEmail demoState "a") true 42)) :=
  C4_invalid_proof_no_mutation demoState "a" badSigBundle demoBundle true 42
    (by decide) (by decide) (by decide) (by decide) (by decide) (by decide) (by rfl)

/-- C5: the engine layer does NOT treat the store's `AlreadyVerified` as a
success-no-op. When the record is committed by a concurrent verification
between `decryptData`'s initial read (`demoState`, unverified) and its own
verify transaction (`demoVerified`, verified), the contract reverts with
the reason `"Email already verified"`; the frontend's catch handler matches
only messages containing `"Data already verified"`, which never occurs, so
`decryptData` lands in the generic failure branch — an error banner and a
`null` return — instead of the claimed success-no-op returning the
already-committed values. (A strictly sequential second call does take the
initial-read fast path and returns the stored scalar, final conjunct: the
defect sits precisely in the catch handler meant for the store's
`AlreadyVerified`.) -/
theorem C5_race_alreadyVerified_misreported :
    (getEmail demoState "a").isVerified = false ∧
    (getEmail demoVerified "a").isVerified = true ∧
    verifySpamStatus demoVerified "a" demoBundle = .error .AlreadyVerified ∧
    strContains (revertMessage .AlreadyVerified) "Data already verified" = false ∧
    decryptData demoState demoVerified "a" demoBundle = (demoVerified, .failure) ∧
    decryptData demoVerified demoVerified "a" demoBundle = (demoVerified, .success 42) :=
  ⟨by decide, by decide, by rfl, by decide, by decide, by decide⟩

/-- C6 counterexample: two genuinely signed bundles disclosing the same
scalar `40` but opposite booleans are both accepted for the same record and
commit different classification flags. The committed flag is therefore not
a function of the decoded disclosed scalar alone — it is an independent
input decoded from the proof bundle. -/
theorem C6_counterexample :
    verifySpamStatus demoState "a" bundleFlagTrue =
      .ok (setEmail demoState "a" (verifiedRecord (getEmail demoState "a") true 40)) ∧
    verifySpamStatus demoState "a" bundleFlagFalse =
      .ok (setEmail demoState "a" (verifiedRecord (getEmail demoState "a") false 40)) ∧
    (getEmail (applyOp demoState (.verify "a" bundleFlagTrue)) "a").decryptedScore =
      (getEmail (applyOp demoState (.verify "a" bundleFlagFalse)) "a").decryptedScore ∧
    (getEmail (applyOp demoState (.verify "a" bundleFlagTrue)) "a").isSpam = true ∧
    (getEmail (applyOp demoState (.verify "a" bundleFlagFalse)) "a").isSpam = false :=
  ⟨by rfl, by rfl, by decide, by decide, by decide⟩

/-- C6 (amended): on every successful verify the committed
classification flag is the boolean decoded directly from the proof bundle's
abi-encoded cleartexts — supplied by the off-chain caller, outside the
engine — committed together with the scalar in the one verifying store, and
no later transaction ever recomputes or changes either value. -/
theorem C6_flag_from_bundle (s : ContractState) (id : String) (b : ProofBundle)
    (s' : ContractState) (flag : Bool) (score : Nat)
    (hok : verifySpamStatus s id b = .ok s')
    (hdec : abiDecodeBoolUint32 b.abiEncodedCleartexts = some (flag, score)) :
    (getEmail s' id).isSpam = flag ∧ (getEmail s' id).decryptedScore = score ∧
    ∀ ops : List Op,
      (getEmail (execOps s' ops) id).isSpam = flag ∧
      (getEmail (execOps s' ops) id).decryptedScore = score := by
  obtain ⟨h1, h2, h3, h4, flag', score', hdec', hst⟩ := verify_ok_inv s id b s' hok
  rw [hdec] at hdec'
  obtain ⟨hf, hsc⟩ := Prod.mk.injEq .. |>.mp (Option.some.inj hdec')
  subst hf
  subst hsc
  subst hst
  have hget := getEmail_setEmail_same s id (verifiedRecord (getEmail s id) flag score)
  have hsend : (getEmail (setEmail s id (verifiedRecord (getEmail s id) flag score)) id).sender
      ≠ 0 := by
    rw [hget]
    exact h1
  have hver : (getEmail (setEmail s id (verifiedRecord (getEmail s id) flag score)) id).isVerified
      = true := by
    rw [hget]
    rfl
  refine ⟨by rw [hget]; rfl, by rw [hget]; rfl, ?_⟩
  intro ops
  obtain ⟨hv, hfst, hdst⟩ :=
    execOps_verified_stable (setEmail s id (verifiedRecord (getEmail s id) flag score)) ops id
      hsend hver
  rw [hfst, hdst, hget]
  exact ⟨rfl, rfl⟩

/-- Witness for C6 (amended) at record `"a"` and the flag-true bundle,
including stability across a further (rejected) verify transaction. -/
theorem C6_witness :
    (getEmail (applyOp demoState (.verify "a" bundleFlagTrue)) "a").isSpam = true ∧
    (getEmail (execOps (applyOp demoState (.verify "a" bundleFlagTrue))
      [Op.verify "a" bundleFlagTrue]) "a").isSpam = true := by
  have h := C6_flag_from_bundle demoState "a" bundleFlagTrue
    (applyOp demoState (.verify "a" bundleFlagTrue)) true 40 (by rfl) (by rfl)
  exact ⟨h.1, (h.2.2 [Op.verify "a" bundleFlagTrue]).1⟩

/-- C7: create followed immediately by a read returns an unverified record
carrying exactly the ciphertext handle passed to create, and that handle is
never reassigned by any later sequence of transactions, verify included. -/
theorem C7_handle_immutable (s : ContractState) (id : String) (ext : ExtCiphertext)
    (md sndr ts : Nat)
    (habs : (getEmail s id).sender = 0) (hsnd : sndr ≠ 0) (hval : ext.proofValid = true) :
    processEmail s id ext md sndr ts = .ok (createdState s id ext md sndr ts) ∧
    getEncryptedContent (createdState s id ext md sndr ts) id = .ok ext.handle ∧
    (getEmail (createdState s id ext md sndr ts) id).isVerified = false ∧
    ∀ ops : List Op,
      (getEmail (execOps (createdState s id ext md sndr ts) ops) id).encryptedContent =
        ext.handle := by
  have hget := getEmail_createdState_same s id ext md sndr ts
  have hsender : (getEmail (createdState s id ext md sndr ts) id).sender ≠ 0 := by
    rw [hget]
    exact hsnd
  refine ⟨processEmail_ok_sound s id ext md sndr ts habs hval, ?_, by rw [hget]; rfl, ?_⟩
  · unfold getEncryptedContent
    rw [hget]
    simp [freshRecord, hsnd]
  · intro ops
    have hc := (execOps_preserves_core (createdState s id ext md sndr ts) ops id hsender).1
    rw [hc, hget]
    rfl

/-- Witness for C7: record `"a"` keeps handle 7 through a verify. -/
theorem C7_witness :
    getEncryptedContent (createdState genesisState "a" demoExt 3 1 100) "a" = .ok 7 ∧
    (getEmail (execOps (createdState genesisState "a" demoExt 3 1 100)
      [Op.verify "a" demoBundle]) "a").encryptedContent = 7 := by
  have h := C7_handle_immutable genesisState "a" demoExt 3 1 100
    (by decide) (by decide) (by decide)
  exact ⟨h.2.1, h.2.2.2 [Op.verify "a" demoBundle]⟩

/-- C8 counterexample: the disclosure fields of an unverified record are
not absent. Reading the freshly created, unverified record `"a"` through
`getEmailData` answers with the zeroed defaults `isSpam = false`,
`decryptedScore = 0` in its fourth and fifth components, and the UI display
layer substitutes the constant default `50` when neither a decrypted nor a
public score is available — defaults ARE substituted, contradicting the
claim. -/
theorem C8_counterexample :
    (getEmail demoState "a").isVerified = false ∧
    getEmailData demoState "a" = .ok (3, 1, 100, false, 0, false) ∧
    displayedSpamScore false 0 none 0 = 50 :=
  ⟨by decide, by rfl, by decide⟩

/-- C8 (amended): the contract represents the disclosure fields of an
unverified record by zeroed placeholders rather than leaving them absent:
in every reachable state an unverified record has `decryptedScore = 0` and
`isSpam = false` — a meaningful disclosed value is present only once
`verified = true` — and `getEmailData` returns exactly those placeholders
for an unverified record. -/
theorem C8_unverified_defaults (s : ContractState) (id : String)
    (hreach : Reachable s) (hunv : (getEmail s id).isVerified = false) :
    (getEmail s id).decryptedScore = 0 ∧ (getEmail s id).isSpam = false ∧
    ((getEmail s id).sender ≠ 0 →
      getEmailData s id = .ok ((getEmail s id).publicMetadata, (getEmail s id).sender,
        (getEmail s id).timestamp, false, 0, false)) := by
  obtain ⟨hsc, hsp⟩ := reachable_unverifiedDefaults s hreach id hunv
  refine ⟨hsc, hsp, ?_⟩
  intro hsend
  unfold getEmailData
  simp [hsend, hsc, hsp, hunv]

/-- Witness for C8 (amended) at the reachable state holding the fresh
record `"a"`. -/
theorem C8_witness :
    (getEmail demoState "a").decryptedScore = 0 ∧ (getEmail demoState "a").isSpam = false ∧
    getEmailData demoState "a" = .ok ((getEmail demoState "a").publicMetadata,
      (getEmail demoState "a").sender, (getEmail demoState "a").timestamp, false, 0, false) := by
  have h := C8_unverified_defaults demoState "a"
    ⟨[Op.process "a" demoExt 3 1 100], rfl⟩ (by decide)
  exact ⟨h.1, h.2.1, h.2.2 (by decide)⟩

/-- C9: the id ledger is append-only — every transaction leaves
`emailIds` a prefix of the new value, verify transactions never change it
at all, and after three sequential creations followed by any sequence of
verify transactions `getAllEmailIds` returns exactly the ids in creation
order. -/
theorem C9_creation_order :
    (∀ (s : ContractState) (op : Op), ∃ t, (applyOp s op).emailIds = s.emailIds ++ t) ∧
    (∀ (s : ContractState) (id : String) (b : ProofBundle),
      (applyOp s (.verify id b)).emailIds = s.emailIds) ∧
    (∀ (a b c : String) (e1 e2 e3 : ExtCiphertext) (m1 m2 m3 n1 n2 n3 t1 t2 t3 : Nat)
      (verifies : List Op),
      a ≠ b → a ≠ c → b ≠ c → n1 ≠ 0 → n2 ≠ 0 → n3 ≠ 0 →
      e1.proofValid = true → e2.proofValid = true → e3.proofValid = true →
      (∀ op ∈ verifies, isVerifyTx op = true) →
      getAllEmailIds (execOps genesisState
        ([Op.process a e1 m1 n1 t1, Op.process b e2 m2 n2 t2,
          Op.process c e3 m3 n3 t3] ++ verifies)) = [a, b, c]) := by
  refine ⟨applyOp_emailIds_mono, applyOp_verify_emailIds, ?_⟩
  intro a b c e1 e2 e3 m1 m2 m3 n1 n2 n3 t1 t2 t3 verifies hab hac hbc hn1 hn2 hn3
    he1 he2 he3 hver
  have h0a : (getEmail genesisState a).sender = 0 := rfl
  have ha := applyOp_process_ok genesisState a e1 m1 n1 t1 _
    (processEmail_ok_sound genesisState a e1 m1 n1 t1 h0a he1)
  have h0b : (getEmail (createdState genesisState a e1 m1 n1 t1) b).sender = 0 := by
    rw [getEmail_createdState_ne genesisState a b e1 m1 n1 t1 (Ne.symm hab)]
    rfl
  have hb := applyOp_process_ok (createdState genesisState a e1 m1 n1 t1) b e2 m2 n2 t2 _
    (processEmail_ok_sound _ b e2 m2 n2 t2 h0b he2)
  have h0c : (getEmail (createdState (createdState genesisState a e1 m1 n1 t1)
      b e2 m2 n2 t2) c).sender = 0 := by
    rw [getEmail_createdState_ne _ b c e2 m2 n2 t2 (Ne.symm hbc),
      getEmail_createdState_ne genesisState a c e1 m1 n1 t1 (Ne.symm hac)]
    rfl
  have hc := applyOp_process_ok (createdState (createdState genesisState a e1 m1 n1 t1)
      b e2 m2 n2 t2) c e3 m3 n3 t3 _
    (processEmail_ok_sound _ c e3 m3 n3 t3 h0c he3)
  rw [execOps_append]
  have hpre : execOps genesisState
      [Op.process a e1 m1 n1 t1, Op.process b e2 m2 n2 t2, Op.process c e3 m3 n3 t3] =
      createdState (createdState (createdState genesisState a e1 m1 n1 t1) b e2 m2 n2 t2)
        c e3 m3 n3 t3 := by
    show applyOp (applyOp (applyOp genesisState (.process a e1 m1 n1 t1))
      (.process b e2 m2 n2 t2)) (.process c e3 m3 n3 t3) = _
    rw [ha, hb, hc]
  rw [hpre]
  unfold getAllEmailIds
  rw [execOps_verifies_emailIds _ verifies hver]
  simp [createdState, genesisState]

/-- Witness for C9: three creations, then a verify, on a fresh contract. -/
theorem C9_witness :
    getAllEmailIds (execOps genesisState
      ([Op.process "a" demoExt 3 1 100, Op.process "b" demoExt 4 1 101,
        Op.process "c" demoExt 5 1 102] ++ [Op.verify "a" demoBundle])) = ["a", "b", "c"] :=
  C9_creation_order.2.2 "a" "b" "c" demoExt demoExt demoExt 3 4 5 1 1 1 100 101 102
    [Op.verify "a" demoBundle] (by decide) (by decide) (by decide) (by decide) (by decide)
    (by decide) (by decide) (by decide) (by decide) (by decide)

/-- C10: frame of a successful `verifySpamStatus`: on the verified record
only `isSpam`, `decryptedScore`, `isVerified` change —
`encryptedContent`, `publicMetadata`, `sender` and `timestamp` are
untouched — the `emailIds` sequence is unchanged, and every other record in
the registry is unchanged. -/
theorem C10_verify_frame (s : ContractState) (id : String) (b : ProofBundle)
    (s' : ContractState) (hok : verifySpamStatus s id b = .ok s') :
    (getEmail s' id).encryptedContent = (getEmail s id).encryptedContent ∧
    (getEmail s' id).publicMetadata = (getEmail s id).publicMetadata ∧
    (getEmail s' id).sender = (getEmail s id).sender ∧
    (getEmail s' id).timestamp = (getEmail s id).timestamp ∧
    s'.emailIds = s.emailIds ∧
    ∀ other : String, other ≠ id → getEmail s' other = getEmail s other := by
  obtain ⟨h1, h2, h3, h4, flag, score, hdec, hst⟩ := verify_ok_inv s id b s' hok
  subst hst
  have hget := getEmail_setEmail_same s id (verifiedRecord (getEmail s id) flag score)
  refine ⟨by rw [hget]; rfl, by rw [hget]; rfl, by rw [hget]; rfl, by rw [hget]; rfl, rfl, ?_⟩
  intro other hne
  exact getEmail_setEmail_ne s id other _ hne

/-- Witness for C10 at record `"a"` and bystander id `"b"`. -/
theorem C10_witness :
    (getEmail demoVerified "a").sender = (getEmail demoState "a").sender ∧
    (getEmail demoVerified "a").encryptedContent = (getEmail demoState "a").encryptedContent ∧
    demoVerified.emailIds = demoState.emailIds ∧
    getEmail demoVerified "b" = getEmail demoState "b" := by
  have h := C10_verify_frame demoState "a" demoBundle demoVerified (by rfl)
  exact ⟨h.2.2.1, h.1, h.2.2.2.2.1, h.2.2.2.2.2 "b" (by decide)⟩

end SpamGuard
